import Mathlib

/-!
Verification development for the `up` dependency cache and dep command.

The repository's sources under study are:
* the cache test suite (`TestGet`, `TestStore`, `TestClean`, `TestCalculatePath`)
  for the `Local` package cache of `internal/xpkg/dep/cache`;
* `cmd/up/xpkg/dep.go`, the dep command (`userSuppliedDep`, `metaSuppliedDeps`).

The cache and manager implementations themselves are not part of the supplied
sources, only their tests and callers; those components are modelled from the
specification, with their observable behaviour pinned by the test suite where
the two disagree (notably the key used by `Store`).
-/

set_option autoImplicit false

namespace Up

/-- Package type enumeration (`v1beta1.PackageType`): provider, configuration
or unknown. -/
inductive PackageType where
  | Provider
  | Configuration
  | Unknown
deriving DecidableEq, Repr

/-- A declared dependency (`v1beta1.Dependency` as used by the tests and
`dep.go`): a package path (registry + repository, no tag), a package type and a
version constraint. The source field `Type` is rendered `DepType` here. -/
structure Dependency where
  Package : String
  DepType : PackageType
  Constraints : String
deriving DecidableEq, Repr

/-- The result of fetching and decoding a package artifact
(`xpkg.ParsedPackage` as constructed in the test fixtures): metadata document,
package type, content digest, fully-qualified registry+repository string, and
tag/version. The metadata document is abstracted to a string. -/
structure ParsedPackage where
  MetaObj : String
  PType : PackageType
  SHA : String
  Reg : String
  Ver : String
deriving DecidableEq, Repr

/-- `Digest` of a parsed package (the `Digest()` accessor compared by the
tests) is its content digest `SHA`. -/
def ParsedPackage.Digest (p : ParsedPackage) : String :=
  p.SHA

/-- The default registry's short alias (`docker.io`). -/
def defaultRegistryAlias : String := "docker.io"

/-- The canonical fully-qualified default registry host (`index.docker.io`). -/
def defaultRegistryHost : String := "index.docker.io"

/-- Modelled from the spec: registry-host normalization used by
`calculatePath` — a bare or default-alias registry host is rewritten to the
canonical fully-qualified default registry hostname; every other registry host
passes through unchanged. -/
def normalizeRegistry (r : String) : String :=
  if r = "" ∨ r = defaultRegistryAlias then defaultRegistryHost else r

/-- An OCI image tag reference (`ociname.Tag`): registry host as written
(empty when omitted), repository path, and tag. -/
structure Tag where
  registry : String
  repository : String
  tag : String
deriving DecidableEq, Repr

/-- Modelled from the spec: `calculatePath` of the `Local` cache (its
implementation is not among the supplied sources; `TestCalculatePath` pins its
outputs). It produces the cache key
`<normalized-registry>/<repository>@<tag>`. -/
def calculatePath (t : Tag) : String :=
  normalizeRegistry t.registry ++ "/" ++ t.repository ++ "@" ++ t.tag

/-- Split a character list into the groups separated by the given
character. -/
def splitOnChar (sep : Char) : List Char → List (List Char)
  | [] => [[]]
  | c :: rest =>
    if c = sep then [] :: splitOnChar sep rest
    else
      match splitOnChar sep rest with
      | [] => [[c]]
      | g :: gs => (c :: g) :: gs

/-- Join a list of strings with `/` separators. -/
def joinSlash : List String → String
  | [] => ""
  | [s] => s
  | s :: rest => s ++ "/" ++ joinSlash rest

/-- A leading path segment denotes a registry host exactly when it contains a
dot or a colon or is `localhost` (the reference-parsing convention of the OCI
name library used by the tests). -/
def looksLikeRegistry (s : String) : Bool :=
  s.data.contains '.' || s.data.contains ':' || s = "localhost"

/-- Split a package path into registry host (empty when omitted) and
repository, following the OCI reference-parsing convention. -/
def splitRepo (pkg : String) : String × String :=
  match splitOnChar '/' pkg.data with
  | [] => ("", pkg)
  | [_] => ("", pkg)
  | first :: rest =>
    if looksLikeRegistry ⟨first⟩ then (⟨first⟩, joinSlash (rest.map String.mk))
    else ("", pkg)

/-- Modelled from the spec: the cache key the `Local` cache derives from a
dependency — `dep.Package` with its constraint treated as a concrete tag,
parsed and canonicalized through `calculatePath`. -/
def keyForDep (d : Dependency) : String :=
  calculatePath ⟨(splitRepo d.Package).1, (splitRepo d.Package).2, d.Constraints⟩

/-- The cache key computed from a package's own `(Reg, Ver)` pair, the key
derivation the spec's prose ascribes to `Store`. -/
def keyForPkg (p : ParsedPackage) : String :=
  calculatePath ⟨(splitRepo p.Reg).1, (splitRepo p.Reg).2, p.Ver⟩

/-- Underlying filesystem errors observable through the test suite's read-only
filesystem (`syscall.EPERM`). -/
inductive FsErr where
  | EPERM
deriving DecidableEq, Repr

/-- Cache error kinds from the spec's error taxonomy: `NotFound` (a cache miss
surfaced as the filesystem does-not-exist condition), `WriteFailed` and
`CleanFailed` (each carrying the underlying filesystem error). -/
inductive CacheErr where
  | NotFound
  | WriteFailed (underlying : FsErr)
  | CleanFailed (underlying : FsErr)
deriving DecidableEq, Repr

/-- Modelled from the spec: the `Local` cache (implementation not among the
supplied sources). The filesystem is abstracted to the association list of
stored entries, keyed by cache key, plus a read-only flag standing for the
injected read-only filesystem of the failure tests. -/
structure Local where
  entries : List (String × ParsedPackage)
  readOnly : Bool
deriving DecidableEq, Repr

/-- Number of on-disk files per stored entry: the decoded package-metadata
document and the image payload (the test suite asserts 2 files per entry). -/
def entryFileCount : Nat := 2

/-- Total on-disk file count of the cache (the `cacheFileCnt` helper of the
test suite): every stored entry contributes its fixed file count. -/
def cacheFileCnt (c : Local) : Nat :=
  entryFileCount * c.entries.length

/-- Insert a key/package pair into an entry list, replacing the first entry
with the same key in place when present, appending otherwise. -/
def insertEntry (k : String) (p : ParsedPackage) :
    List (String × ParsedPackage) → List (String × ParsedPackage)
  | [] => [(k, p)]
  | e :: rest => if e.1 = k then (k, p) :: rest else e :: insertEntry k p rest

/-- Look up the package stored under a key. -/
def lookupEntry (k : String) : List (String × ParsedPackage) → Option ParsedPackage
  | [] => none
  | e :: rest => if e.1 = k then some e.2 else lookupEntry k rest

/-- Number of entries stored under a key. -/
def countKey (k : String) (l : List (String × ParsedPackage)) : Nat :=
  (l.filter (fun e => decide (e.1 = k))).length

/-- Modelled from the spec: the low-level writer `add` of the `Local` cache —
the single code path that creates the entry directory and writes the metadata
document and payload under the given key, replacing any previous entry at that
key; it fails with `WriteFailed` wrapping the filesystem error when the
filesystem is read-only, leaving the cache untouched. -/
def Local.add (c : Local) (p : ParsedPackage) (key : String) :
    Option CacheErr × Local :=
  if c.readOnly then (some (.WriteFailed .EPERM), c)
  else (none, { c with entries := insertEntry key p c.entries })

/-- Modelled from the spec: `Store` of the `Local` cache. The key it writes
under is derived from the dependency argument (its package path and
constraint), as pinned by `TestStore`: the `Replace` case stores a package
with a different `(Reg, Ver)` under the same dependency and asserts a single
overwritten entry that `Get` of that same dependency retrieves. -/
def Local.Store (c : Local) (dep : Dependency) (pkg : ParsedPackage) :
    Option CacheErr × Local :=
  c.add pkg (keyForDep dep)

/-- Modelled from the spec: `Get` of the `Local` cache — derive the key from
the dependency, read the entry there, fail with `NotFound` when none exists.
It never mutates the cache. -/
def Local.Get (c : Local) (dep : Dependency) :
    Except CacheErr ParsedPackage × Local :=
  match lookupEntry (keyForDep dep) c.entries with
  | some p => (.ok p, c)
  | none => (.error .NotFound, c)

/-- Modelled from the spec: `Clean` of the `Local` cache — recursively remove
everything under the root; fail with `CleanFailed` wrapping the filesystem
error and leave the cache exactly as it was when the filesystem refuses
deletion. -/
def Local.Clean (c : Local) : Option CacheErr × Local :=
  if c.readOnly then (some (.CleanFailed .EPERM), c)
  else (none, { c with entries := [] })

/-- Test fixture `dep1`: `crossplane/exist-xpkg` at `latest`. -/
def dep1 : Dependency :=
  ⟨"crossplane/exist-xpkg", .Provider, "latest"⟩

/-- Test fixture `dep2`: `crossplane/dep2-xpkg` at `latest`. -/
def dep2 : Dependency :=
  ⟨"crossplane/dep2-xpkg", .Provider, "latest"⟩

/-- Test fixture `pkg1`: provider-aws at `v0.20.1-alpha`. -/
def pkg1 : ParsedPackage :=
  ⟨"Provider/provider-aws", .Provider,
   "sha256:d507e508234732c6dc95d29c8a8c932fa8fa6a229231e309927641f99933892e",
   "index.docker.io/crossplane/provider-aws", "v0.20.1-alpha"⟩

/-- Test fixture `pkg2`: provider-gcp at `v0.18.1`. -/
def pkg2 : ParsedPackage :=
  ⟨"Provider/provider-gcp", .Provider,
   "sha256:d507e508234732c6dc95d29c8a8c932fa8fa6a229231e309927077099933707",
   "index.docker.io/crossplane/provider-gcp", "v0.18.1"⟩

/-- An empty, writable cache. -/
def emptyCache : Local :=
  ⟨[], false⟩

/-! ### Association-list lemmas for the entry store -/

theorem lookupEntry_insertEntry_self (k : String) (p : ParsedPackage)
    (l : List (String × ParsedPackage)) :
    lookupEntry k (insertEntry k p l) = some p := by
  induction l with
  | nil => simp [insertEntry, lookupEntry]
  | cons e rest ih =>
    by_cases h : e.1 = k
    · simp [insertEntry, lookupEntry, h]
    · simp [insertEntry, lookupEntry, h, ih]

theorem length_insertEntry_of_found (k : String) (p : ParsedPackage)
    {l : List (String × ParsedPackage)} (h : lookupEntry k l ≠ none) :
    (insertEntry k p l).length = l.length := by
  induction l with
  | nil => simp [lookupEntry] at h
  | cons e rest ih =>
    by_cases he : e.1 = k
    · simp [insertEntry, he]
    · simp only [lookupEntry, he, if_false] at h
      simp [insertEntry, he, ih h]

theorem length_insertEntry_of_not_found (k : String) (p : ParsedPackage)
    {l : List (String × ParsedPackage)} (h : lookupEntry k l = none) :
    (insertEntry k p l).length = l.length + 1 := by
  induction l with
  | nil => simp [insertEntry]
  | cons e rest ih =>
    by_cases he : e.1 = k
    · simp [lookupEntry, he] at h
    · simp only [lookupEntry, he, if_false] at h
      simp [insertEntry, he, ih h]

theorem mem_keys_insertEntry (k x : String) (p : ParsedPackage)
    {l : List (String × ParsedPackage)}
    (h : x ∈ (insertEntry k p l).map Prod.fst) :
    x = k ∨ x ∈ l.map Prod.fst := by
  induction l with
  | nil => simpa [insertEntry] using h
  | cons e rest ih =>
    by_cases he : e.1 = k
    · simp only [insertEntry, he, if_true, List.map_cons, List.mem_cons] at h
      rcases h with h | h
      · exact Or.inl h
      · exact Or.inr (by simp [h])
    · simp only [insertEntry, he, if_false, List.map_cons, List.mem_cons] at h
      rcases h with h | h
      · exact Or.inr (by simp [h])
      · rcases ih h with h' | h'
        · exact Or.inl h'
        · exact Or.inr (by simp [h'])

theorem nodup_keys_insertEntry (k : String) (p : ParsedPackage)
    {l : List (String × ParsedPackage)} (h : (l.map Prod.fst).Nodup) :
    ((insertEntry k p l).map Prod.fst).Nodup := by
  induction l with
  | nil => simp [insertEntry]
  | cons e rest ih =>
    rw [List.map_cons, List.nodup_cons] at h
    by_cases he : e.1 = k
    · simp only [insertEntry, he, if_true, List.map_cons, List.nodup_cons]
      exact ⟨he ▸ h.1, h.2⟩
    · simp only [insertEntry, he, if_false, List.map_cons, List.nodup_cons]
      refine ⟨fun hmem => ?_, ih h.2⟩
      rcases mem_keys_insertEntry k e.1 p hmem with h' | h'
      · exact he h'
      · exact h.1 h'

theorem countKey_eq_zero_of_not_mem (k : String)
    {l : List (String × ParsedPackage)} (h : k ∉ l.map Prod.fst) :
    countKey k l = 0 := by
  induction l with
  | nil => simp [countKey]
  | cons e rest ih =>
    simp only [List.map_cons, List.mem_cons] at h
    push_neg at h
    have he : ¬(e.1 = k) := fun hk => h.1 hk.symm
    simp only [countKey, List.filter_cons, decide_eq_true_eq]
    rw [if_neg he]
    exact ih h.2

theorem countKey_insertEntry_self (k : String) (p : ParsedPackage)
    {l : List (String × ParsedPackage)} (h : (l.map Prod.fst).Nodup) :
    countKey k (insertEntry k p l) = 1 := by
  induction l with
  | nil => simp [insertEntry, countKey]
  | cons e rest ih =>
    rw [List.map_cons, List.nodup_cons] at h
    by_cases he : e.1 = k
    · simp only [insertEntry, he, if_true]
      simp only [countKey, List.filter_cons, decide_eq_true_eq, if_pos rfl]
      have : countKey k rest = 0 :=
        countKey_eq_zero_of_not_mem k (he ▸ h.1)
      simp only [countKey] at this
      simp [this]
    · simp only [insertEntry, he, if_false]
      simp only [countKey, List.filter_cons, decide_eq_true_eq]
      rw [if_neg he]
      exact ih h.2

theorem store_ok (c : Local) (d : Dependency) (p : ParsedPackage)
    (hw : c.readOnly = false) :
    c.Store d p = (none, ⟨insertEntry (keyForDep d) p c.entries, false⟩) := by
  simp [Local.Store, Local.add, hw]

/-! ### Claim theorems about the cache -/

/-- Claim C1 counterexample: on the code, the key `Store` writes under is not
computed from the package's own `(Reg, Ver)`. Storing `pkg1` and then `pkg2`
— whose `(Reg, Ver)` pairs differ — with the same `dep1` leaves a single cache
entry, located at the key derived from `dep1` (where `Get dep1` finds `pkg2`),
and no entry at the keys derived from either package's `(Reg, Ver)`; the claim
instead demands two distinct entries. -/
theorem store_keyed_by_pkg_counterexample :
    keyForPkg pkg1 ≠ keyForPkg pkg2 ∧
    (((emptyCache.Store dep1 pkg1).2.Store dep1 pkg2).2).entries.length = 1 ∧
    lookupEntry (keyForPkg pkg1)
      (((emptyCache.Store dep1 pkg1).2.Store dep1 pkg2).2).entries = none ∧
    lookupEntry (keyForPkg pkg2)
      (((emptyCache.Store dep1 pkg1).2.Store dep1 pkg2).2).entries = none ∧
    lookupEntry (keyForDep dep1)
      (((emptyCache.Store dep1 pkg1).2.Store dep1 pkg2).2).entries = some pkg2 := by
  decide

/-- Claim C1 amended: for every call `Store(dep, pkg)` on a writable cache,
the cache key under which the entry is written is computed from `dep`'s own
`(Package, Constraints)` fields, not from `pkg`; consequently, storing two
packages whose `(Reg, Ver)` pairs differ with the same `dep` overwrites one
and the same cache entry (the second store leaves the entry count unchanged
and the entry holds the second package). -/
theorem store_key_from_dep (c : Local) (d : Dependency) (p q : ParsedPackage)
    (hw : c.readOnly = false) :
    (c.Store d p).2.entries = insertEntry (keyForDep d) p c.entries ∧
    lookupEntry (keyForDep d) ((c.Store d p).2).entries = some p ∧
    (((c.Store d p).2.Store d q).2).entries.length =
      ((c.Store d p).2).entries.length ∧
    lookupEntry (keyForDep d) (((c.Store d p).2.Store d q).2).entries = some q := by
  have e1 : (c.Store d p).2 = ⟨insertEntry (keyForDep d) p c.entries, false⟩ := by
    rw [store_ok c d p hw]
  rw [e1, store_ok _ d q rfl]
  refine ⟨rfl, lookupEntry_insertEntry_self _ _ _, ?_,
    lookupEntry_insertEntry_self _ _ _⟩
  exact length_insertEntry_of_found _ _
    (by rw [lookupEntry_insertEntry_self]; simp)

/-- Witness for the amended claim C1 at the test fixtures. -/
theorem store_key_from_dep_witness :
    lookupEntry (keyForDep dep1) ((emptyCache.Store dep1 pkg1).2).entries = some pkg1 ∧
    (((emptyCache.Store dep1 pkg1).2.Store dep1 pkg2).2).entries.length =
      ((emptyCache.Store dep1 pkg1).2).entries.length ∧
    lookupEntry (keyForDep dep1)
      (((emptyCache.Store dep1 pkg1).2.Store dep1 pkg2).2).entries = some pkg2 :=
  ⟨(store_key_from_dep emptyCache dep1 pkg1 pkg2 rfl).2.1,
   (store_key_from_dep emptyCache dep1 pkg1 pkg2 rfl).2.2.1,
   (store_key_from_dep emptyCache dep1 pkg1 pkg2 rfl).2.2.2⟩

/-- Claim C2: `calculatePath` canonicalizes the default registry — a tag whose
registry is the default alias (or omitted) yields the same path as the same
tag qualified with the fully-qualified default host; the documented example
yields `index.docker.io/crossplane/provider-aws@v0.20.1-alpha`; any other
registry host passes through unchanged, as on the `gcr.io` and
`registry.upbound.io` examples. -/
theorem calculatePath_canonical :
    (∀ repo t : String,
      calculatePath ⟨"", repo, t⟩ = calculatePath ⟨defaultRegistryHost, repo, t⟩ ∧
      calculatePath ⟨defaultRegistryAlias, repo, t⟩ =
        calculatePath ⟨defaultRegistryHost, repo, t⟩) ∧
    calculatePath ⟨"", "crossplane/provider-aws", "v0.20.1-alpha"⟩ =
      "index.docker.io/crossplane/provider-aws@v0.20.1-alpha" ∧
    (∀ reg repo t : String, reg ≠ "" → reg ≠ defaultRegistryAlias →
      calculatePath ⟨reg, repo, t⟩ = reg ++ "/" ++ repo ++ "@" ++ t) ∧
    calculatePath ⟨"gcr.io", "crossplane/provider-gcp", "v1.0.0"⟩ =
      "gcr.io/crossplane/provider-gcp@v1.0.0" ∧
    calculatePath
        ⟨"registry.upbound.io", "examples-aws/getting-started",
          "v0.14.0-240.g6a7366f"⟩ =
      "registry.upbound.io/examples-aws/getting-started@v0.14.0-240.g6a7366f" := by
  refine ⟨fun repo t => ⟨?_, ?_⟩, by decide, fun reg repo t h1 h2 => ?_,
    by decide, by decide⟩
  · simp [calculatePath, normalizeRegistry, defaultRegistryHost, defaultRegistryAlias]
  · simp [calculatePath, normalizeRegistry, defaultRegistryHost, defaultRegistryAlias]
  · simp [calculatePath, normalizeRegistry, h1, h2]

/-- Witness for claim C2: the pass-through branch applied at `gcr.io`. -/
theorem calculatePath_canonical_witness :
    calculatePath ⟨"gcr.io", "crossplane/provider-gcp", "v1.0.0"⟩ =
      "gcr.io" ++ "/" ++ "crossplane/provider-gcp" ++ "@" ++ "v1.0.0" :=
  calculatePath_canonical.2.2.1 "gcr.io" "crossplane/provider-gcp" "v1.0.0"
    (by decide) (by decide)

/-- Claim C3: on a writable cache, `Store(dep, pkg)` followed by `Get(dep)`
returns a parsed package — `pkg` itself — whose digest equals `pkg`'s
digest. -/
theorem store_then_get_digest (c : Local) (d : Dependency) (p : ParsedPackage)
    (hw : c.readOnly = false) :
    ((c.Store d p).2.Get d).1 = Except.ok p ∧
    Except.map ParsedPackage.Digest ((c.Store d p).2.Get d).1 =
      Except.ok p.Digest := by
  have h : lookupEntry (keyForDep d) ((c.Store d p).2).entries = some p := by
    simp [Local.Store, Local.add, hw, lookupEntry_insertEntry_self]
  constructor
  · simp [Local.Get, h]
  · simp [Local.Get, h, Except.map]

/-- Witness for claim C3 at the test fixtures. -/
theorem store_then_get_digest_witness :
    ((emptyCache.Store dep1 pkg1).2.Get dep1).1 = Except.ok pkg1 ∧
    Except.map ParsedPackage.Digest ((emptyCache.Store dep1 pkg1).2.Get dep1).1 =
      Except.ok pkg1.Digest :=
  store_then_get_digest emptyCache dep1 pkg1 rfl

/-- Claim C4: replace semantics — on a writable cache with distinct entry
keys, storing `A` and then `B` under the same key (the key of `d`) leaves
exactly one entry at that key, holding `B` (hence `B`'s digest), and the total
on-disk file count after the second store equals the count after the first
(the single-entry count: `entryFileCount` when the cache started empty), even
when the two packages differ only in digest. -/
theorem store_replace (c : Local) (d : Dependency) (A B : ParsedPackage)
    (hw : c.readOnly = false) (hnd : (c.entries.map Prod.fst).Nodup) :
    countKey (keyForDep d) (((c.Store d A).2.Store d B).2).entries = 1 ∧
    lookupEntry (keyForDep d) (((c.Store d A).2.Store d B).2).entries = some B ∧
    cacheFileCnt (((c.Store d A).2.Store d B).2) = cacheFileCnt ((c.Store d A).2) ∧
    (c.entries = [] →
      cacheFileCnt (((c.Store d A).2.Store d B).2) = entryFileCount) := by
  have e1 : (c.Store d A).2 = ⟨insertEntry (keyForDep d) A c.entries, false⟩ := by
    rw [store_ok c d A hw]
  rw [e1, store_ok _ d B rfl]
  refine ⟨countKey_insertEntry_self _ _ (nodup_keys_insertEntry _ _ hnd),
    lookupEntry_insertEntry_self _ _ _, ?_, ?_⟩
  · simp only [cacheFileCnt]
    rw [length_insertEntry_of_found _ _
      (by rw [lookupEntry_insertEntry_self]; simp)]
  · intro hnil
    simp [cacheFileCnt, hnil, insertEntry, entryFileCount]

/-- Witness for claim C4 at the test fixtures (packages differing in more
than the digest differ in particular in the digest). -/
theorem store_replace_witness :
    countKey (keyForDep dep1)
      (((emptyCache.Store dep1 pkg1).2.Store dep1 pkg2).2).entries = 1 ∧
    lookupEntry (keyForDep dep1)
      (((emptyCache.Store dep1 pkg1).2.Store dep1 pkg2).2).entries = some pkg2 ∧
    cacheFileCnt (((emptyCache.Store dep1 pkg1).2.Store dep1 pkg2).2) =
      entryFileCount :=
  ⟨(store_replace emptyCache dep1 pkg1 pkg2 rfl (by simp [emptyCache])).1,
   (store_replace emptyCache dep1 pkg1 pkg2 rfl (by simp [emptyCache])).2.1,
   (store_replace emptyCache dep1 pkg1 pkg2 rfl (by simp [emptyCache])).2.2.2 rfl⟩

/-- Claim C5: additive semantics — storing two packages under two distinct
cache keys into an empty cache yields a total on-disk file count equal to the
sum of the two entries' own file counts (2 + 2 = 4). -/
theorem store_additive (d d' : Dependency) (A B : ParsedPackage)
    (hk : keyForDep d ≠ keyForDep d') :
    cacheFileCnt (((emptyCache.Store d A).2.Store d' B).2) =
      entryFileCount + entryFileCount := by
  have e1 : (emptyCache.Store d A).2 = ⟨[(keyForDep d, A)], false⟩ := by
    rw [store_ok emptyCache d A rfl]; rfl
  rw [e1, store_ok _ d' B rfl]
  simp [cacheFileCnt, insertEntry, hk, entryFileCount]

/-- Witness for claim C5 at the test fixtures `dep1`, `dep2`. -/
theorem store_additive_witness :
    cacheFileCnt (((emptyCache.Store dep1 pkg1).2.Store dep2 pkg2).2) =
      entryFileCount + entryFileCount :=
  store_additive dep1 dep2 pkg1 pkg2 (by decide)

/-- Claim C6: a `Store` attempted against a read-only filesystem returns a
`WriteFailed` error wrapping the underlying permission error, and leaves the
cache — its file count and every pre-existing entry, still readable through
`Get` — exactly as before the attempt. -/
theorem store_readonly_write_failed (c : Local) (d : Dependency)
    (p : ParsedPackage) (hro : c.readOnly = true) :
    (c.Store d p).1 = some (CacheErr.WriteFailed FsErr.EPERM) ∧
    (c.Store d p).2 = c ∧
    cacheFileCnt (c.Store d p).2 = cacheFileCnt c ∧
    ∀ d' : Dependency, ((c.Store d p).2.Get d').1 = (c.Get d').1 := by
  simp [Local.Store, Local.add, hro]

/-- Witness for claim C6: a read-only cache holding one entry. -/
theorem store_readonly_write_failed_witness :
    ((Local.mk [(keyForDep dep1, pkg1)] true).Store dep2 pkg2).1 =
      some (CacheErr.WriteFailed FsErr.EPERM) ∧
    ((Local.mk [(keyForDep dep1, pkg1)] true).Store dep2 pkg2).2 =
      Local.mk [(keyForDep dep1, pkg1)] true ∧
    (((Local.mk [(keyForDep dep1, pkg1)] true).Store dep2 pkg2).2.Get dep1).1 =
      ((Local.mk [(keyForDep dep1, pkg1)] true).Get dep1).1 :=
  ⟨(store_readonly_write_failed (Local.mk [(keyForDep dep1, pkg1)] true)
      dep2 pkg2 rfl).1,
   (store_readonly_write_failed (Local.mk [(keyForDep dep1, pkg1)] true)
      dep2 pkg2 rfl).2.1,
   (store_readonly_write_failed (Local.mk [(keyForDep dep1, pkg1)] true)
      dep2 pkg2 rfl).2.2.2 dep1⟩

/-- Claim C7: `Clean` on a writable filesystem succeeds and reduces the
on-disk file count to 0, whatever the number of stored entries; `Clean` on a
read-only filesystem returns a `CleanFailed` error wrapping the permission
error and leaves the whole cache state exactly as it was. -/
theorem clean_semantics (c : Local) :
    (c.readOnly = false →
      (c.Clean).1 = none ∧ cacheFileCnt (c.Clean).2 = 0) ∧
    (c.readOnly = true →
      (c.Clean).1 = some (CacheErr.CleanFailed FsErr.EPERM) ∧ (c.Clean).2 = c) := by
  constructor <;> intro h <;> simp [Local.Clean, h, cacheFileCnt]

/-- Witness for claim C7: a writable and a read-only cache, each holding two
entries. -/
theorem clean_semantics_witness :
    ((Local.mk [(keyForDep dep1, pkg1), (keyForDep dep2, pkg2)] false).Clean).1 =
      none ∧
    cacheFileCnt
      ((Local.mk [(keyForDep dep1, pkg1), (keyForDep dep2, pkg2)] false).Clean).2 =
      0 ∧
    ((Local.mk [(keyForDep dep1, pkg1), (keyForDep dep2, pkg2)] true).Clean).1 =
      some (CacheErr.CleanFailed FsErr.EPERM) ∧
    ((Local.mk [(keyForDep dep1, pkg1), (keyForDep dep2, pkg2)] true).Clean).2 =
      Local.mk [(keyForDep dep1, pkg1), (keyForDep dep2, pkg2)] true :=
  ⟨((clean_semantics
      (Local.mk [(keyForDep dep1, pkg1), (keyForDep dep2, pkg2)] false)).1 rfl).1,
   ((clean_semantics
      (Local.mk [(keyForDep dep1, pkg1), (keyForDep dep2, pkg2)] false)).1 rfl).2,
   ((clean_semantics
      (Local.mk [(keyForDep dep1, pkg1), (keyForDep dep2, pkg2)] true)).2 rfl).1,
   ((clean_semantics
      (Local.mk [(keyForDep dep1, pkg1), (keyForDep dep2, pkg2)] true)).2 rfl).2⟩

/-- Claim C9: `Get` of a dependency whose derived cache key has no on-disk
entry fails with `NotFound` (the filesystem does-not-exist condition,
surfaced, not swallowed), and `Get` — in particular a successful one — never
mutates the cache. -/
theorem get_miss_not_found (c : Local) (d : Dependency) :
    (lookupEntry (keyForDep d) c.entries = none →
      (c.Get d).1 = Except.error CacheErr.NotFound) ∧
    (c.Get d).2 = c := by
  constructor
  · intro h; simp [Local.Get, h]
  · cases hl : lookupEntry (keyForDep d) c.entries <;> simp [Local.Get, hl]

/-- Witness for claim C9: the empty cache misses, and a populated cache is
not mutated by `Get`. -/
theorem get_miss_not_found_witness :
    (emptyCache.Get dep1).1 = Except.error CacheErr.NotFound ∧
    ((Local.mk [(keyForDep dep1, pkg1)] false).Get dep1).2 =
      Local.mk [(keyForDep dep1, pkg1)] false :=
  ⟨(get_miss_not_found emptyCache dep1).1 rfl,
   (get_miss_not_found (Local.mk [(keyForDep dep1, pkg1)] false) dep1).2⟩

/-! ### The dependency manager and the dep command -/

/-- Manager error kinds from the spec's taxonomy: malformed package
reference, registry/constraint resolution failure, and a cache write failure
surfaced as-is. -/
inductive MgrErr where
  | InvalidReference
  | ResolutionFailed
  | StoreFailed (e : CacheErr)
deriving DecidableEq, Repr

/-- Modelled from the spec: a package string is a well-formed reference
(registry + repository) when it is nonempty and embeds no tag or digest
(the `xpkg.ValidDep` check invoked by `dep.go`). -/
def validRef (s : String) : Bool :=
  s != "" && !(s.data.contains ':') && !(s.data.contains '@')

/-- Modelled from the spec: the resolver capability — the sole network-facing
boundary — translating a package reference and constraint into a concrete
version, and fetching/decoding the artifact of a package reference at a
concrete version. A fixed `Resolver` value models an unchanged registry
state. -/
structure Resolver where
  resolve : String → String → Except Unit String
  fetch : String → String → Except Unit ParsedPackage

/-- Pin a dependency to a concrete resolved version. -/
def pin (d : Dependency) (ver : String) : Dependency :=
  { d with Constraints := ver }

/-- Modelled from the spec: `AddAll` of the dependency manager (its
implementation is not among the supplied sources; `dep.go` is its caller) —
validate the reference, resolve the constraint to a concrete version, use the
cached package when the concrete reference's key already exists in the cache
(skipping the fetch and store), otherwise fetch, decode and `Store` under the
concrete reference; return the pinned dependency and the package. Failures
leave the cache as it was. -/
def AddAll (r : Resolver) (c : Local) (d : Dependency) :
    Except MgrErr (Dependency × ParsedPackage) × Local :=
  if validRef d.Package = true then
    match r.resolve d.Package d.Constraints with
    | .error _ => (.error .ResolutionFailed, c)
    | .ok ver =>
      match (c.Get (pin d ver)).1 with
      | .ok p => (.ok (pin d ver, p), c)
      | .error _ =>
        match r.fetch d.Package ver with
        | .error _ => (.error .ResolutionFailed, c)
        | .ok p =>
          match c.Store (pin d ver) p with
          | (some e, _) => (.error (.StoreFailed e), c)
          | (none, c') => (.ok (pin d ver, p), c')
  else (.error .InvalidReference, c)

/-- The dep command's loop over the workspace-declared dependencies
(`metaSuppliedDeps` in `dep.go`): resolve them through `AddAll` sequentially
in declaration order, returning at the first failure. -/
def metaSuppliedDeps (r : Resolver) : Local → List Dependency → Option MgrErr × Local
  | c, [] => (none, c)
  | c, d :: rest =>
    match AddAll r c d with
    | (.error e, c') => (some e, c')
    | (.ok _, c') => metaSuppliedDeps r c' rest

theorem store_none_inv {c c' : Local} {d : Dependency} {p : ParsedPackage}
    (h : c.Store d p = (none, c')) :
    c' = ⟨insertEntry (keyForDep d) p c.entries, false⟩ := by
  by_cases hw : c.readOnly = true
  · rw [Local.Store, Local.add, if_pos hw] at h
    simp at h
  · rw [store_ok c d p (by simpa using hw)] at h
    exact ((Prod.mk.injEq _ _ _ _).mp h).2.symm

theorem addAll_error_state (r : Resolver) (c : Local) (d : Dependency)
    (e : MgrErr) (h : (AddAll r c d).1 = Except.error e) :
    (AddAll r c d).2 = c := by
  by_cases hv : validRef d.Package = true
  · cases hr : r.resolve d.Package d.Constraints with
    | error u => simp [AddAll, hv, hr]
    | ok ver =>
      cases hg : (c.Get (pin d ver)).1 with
      | ok p => simp [AddAll, hv, hr, hg] at h
      | error u =>
        cases hf : r.fetch d.Package ver with
        | error u2 => simp [AddAll, hv, hr, hg, hf]
        | ok p =>
          cases hs : c.Store (pin d ver) p with
          | mk o c2 =>
            cases o with
            | some e2 => simp [AddAll, hv, hr, hg, hf, hs]
            | none => simp [AddAll, hv, hr, hg, hf, hs] at h
  · simp [AddAll, hv]

theorem metaSuppliedDeps_ok_append (r : Resolver) (ds1 : List Dependency) :
    ∀ c c1 : Local, metaSuppliedDeps r c ds1 = (none, c1) →
      ∀ ds2 : List Dependency,
        metaSuppliedDeps r c (ds1 ++ ds2) = metaSuppliedDeps r c1 ds2 := by
  induction ds1 with
  | nil =>
    intro c c1 h ds2
    simp only [metaSuppliedDeps, Prod.mk.injEq] at h
    rw [List.nil_append, h.2]
  | cons d rest ih =>
    intro c c1 h ds2
    rw [List.cons_append]
    simp only [metaSuppliedDeps] at h ⊢
    cases hA : AddAll r c d with
    | mk res c' =>
      rw [hA] at h
      cases res with
      | error e => simp at h
      | ok v => exact ih c' c1 h ds2

/-- Claim C8: with an unchanged registry state (a fixed resolver), a second
`AddAll` for the same dependency right after a successful one yields the very
same pinned result, and leaves the cache state — in particular its on-disk
entry count — unchanged: the second call is answered by the cache
short-circuit. -/
theorem addAll_idempotent (r : Resolver) (c c1 : Local) (d : Dependency)
    (out : Dependency × ParsedPackage)
    (h : AddAll r c d = (Except.ok out, c1)) :
    AddAll r c1 d = (Except.ok out, c1) ∧
    (AddAll r c1 d).2.entries.length = c1.entries.length := by
  have hmain : AddAll r c1 d = (Except.ok out, c1) := by
    by_cases hv : validRef d.Package = true
    · cases hr : r.resolve d.Package d.Constraints with
      | error u => simp [AddAll, hv, hr] at h
      | ok ver =>
        cases hg : (c.Get (pin d ver)).1 with
        | ok p =>
          simp only [AddAll, hv, if_true, hr, hg, Prod.mk.injEq,
            Except.ok.injEq] at h
          obtain ⟨hout, hc⟩ := h
          subst hc
          simp [AddAll, hv, hr, hg, hout]
        | error u =>
          cases hf : r.fetch d.Package ver with
          | error u2 => simp [AddAll, hv, hr, hg, hf] at h
          | ok p =>
            cases hs : c.Store (pin d ver) p with
            | mk o c2 =>
              cases o with
              | some e2 => simp [AddAll, hv, hr, hg, hf, hs] at h
              | none =>
                simp only [AddAll, hv, if_true, hr, hg, hf, hs, Prod.mk.injEq,
                  Except.ok.injEq] at h
                obtain ⟨hout, hc⟩ := h
                have hc1 : c1 =
                    ⟨insertEntry (keyForDep (pin d ver)) p c.entries, false⟩ := by
                  rw [← hc]; exact store_none_inv hs
                have hget : (c1.Get (pin d ver)).1 = Except.ok p := by
                  rw [hc1]
                  simp [Local.Get, lookupEntry_insertEntry_self]
                simp [AddAll, hv, hr, hget, hout]
    · simp [AddAll, hv] at h
  exact ⟨hmain, by rw [hmain]⟩

/-- A concrete offline resolver fixture: it resolves
`crossplane/provider-aws` at any constraint to `v0.20.1-alpha`, with `pkg1`
as the decoded artifact, and fails on every other package. -/
def awsResolver : Resolver where
  resolve := fun p _ =>
    if p = "crossplane/provider-aws" then .ok "v0.20.1-alpha" else .error ()
  fetch := fun p _ =>
    if p = "crossplane/provider-aws" then .ok pkg1 else .error ()

/-- A declared dependency on `crossplane/provider-aws` at `latest`. -/
def depAws : Dependency :=
  ⟨"crossplane/provider-aws", .Provider, "latest"⟩

/-- The cache produced by one successful `AddAll` of `depAws` against the
empty cache. -/
def awsCache1 : Local :=
  ⟨[(keyForDep (pin depAws "v0.20.1-alpha"), pkg1)], false⟩

/-- Witness for claim C8 at the concrete resolver fixture. -/
theorem addAll_idempotent_witness :
    AddAll awsResolver awsCache1 depAws =
      (Except.ok (pin depAws "v0.20.1-alpha", pkg1), awsCache1) :=
  (addAll_idempotent awsResolver emptyCache awsCache1 depAws
    (pin depAws "v0.20.1-alpha", pkg1) rfl).1

/-- Claim C10: the dep command resolves the workspace-declared dependencies
sequentially in declaration order and returns at the first `AddAll` failure —
the later-declared dependencies are never processed, and the final cache is
exactly the cache `c1` built by the earlier successful `AddAll` calls, so
every entry those calls stored remains present. -/
theorem metaSuppliedDeps_first_failure (r : Resolver) (c c1 : Local)
    (ds1 ds2 : List Dependency) (d : Dependency) (e : MgrErr)
    (h1 : metaSuppliedDeps r c ds1 = (none, c1))
    (h2 : (AddAll r c1 d).1 = Except.error e) :
    metaSuppliedDeps r c (ds1 ++ d :: ds2) = (some e, c1) ∧
    ∀ k q, lookupEntry k c1.entries = some q →
      lookupEntry k (metaSuppliedDeps r c (ds1 ++ d :: ds2)).2.entries = some q := by
  have hmain : metaSuppliedDeps r c (ds1 ++ d :: ds2) = (some e, c1) := by
    rw [metaSuppliedDeps_ok_append r ds1 c c1 h1 (d :: ds2)]
    simp only [metaSuppliedDeps]
    have hst := addAll_error_state r c1 d e h2
    cases hA : AddAll r c1 d with
    | mk res c2 =>
      rw [hA] at h2 hst
      cases res with
      | error e2 =>
        simp at h2 hst
        subst h2
        subst hst
        rfl
      | ok v => simp at h2
  refine ⟨hmain, fun k q hkq => ?_⟩
  rw [hmain]
  exact hkq

/-- Witness for claim C10: one successful dependency, then a failing one,
then an unprocessed one. -/
theorem metaSuppliedDeps_first_failure_witness :
    metaSuppliedDeps awsResolver emptyCache ([depAws] ++ dep1 :: [dep2]) =
      (some MgrErr.ResolutionFailed, awsCache1) :=
  (metaSuppliedDeps_first_failure awsResolver emptyCache awsCache1 [depAws]
    [dep2] dep1 MgrErr.ResolutionFailed (by decide) rfl).1

end Up
